import Mathlib

/-!
Verification of the DeepSeek provider adapter
(`crates/goose/src/providers/deepseek.rs`).

The development shallowly embeds the provider's completion pipeline:
request-payload mutation, the SSE streaming loop of `post`, the stream
collector, the post-processing in `complete`, the model-directory fetch
`fetch_supported_models_async`, and `create_embeddings`.  The network is
modelled as data: a send attempt either fails with a connection error or
yields an HTTP response carrying a status code and a sequence of body
chunks (already decoded to text, mirroring `String::from_utf8_lossy`,
which is total).  Components of the repository that this file does not
have the source of (the error enum, the universal OpenAI stream
collector, the openai format helpers) are modelled from the spec and are
marked as such in their doc comments.
-/

/-- A JSON value, mirroring `serde_json::Value`.  Numbers are modelled as
integers: no claim examined here involves non-integral payload numbers.
Objects are association lists; `serde_json::Map` lookup and
value-replacing insert are modelled on them below. -/
inductive Value where
  | null
  | bool (b : Bool)
  | num (n : Int)
  | str (s : String)
  | arr (elems : List Value)
  | obj (fields : List (String × Value))

/-- Modelled from the spec: the caller-facing error taxonomy
(`providers/errors.rs` is not part of the sources at hand).  The spec's
taxonomy maps onto the variants used by `deepseek.rs` as follows:
TransportFailure = `RequestFailed`, AuthenticationFailure =
`Authentication`, UsageExtractionFailure = `UsageError`, and
UnsupportedOperation = `ExecutionError` (the variant `create_embeddings`
constructs). -/
inductive ProviderError where
  | RequestFailed (msg : String)
  | Authentication (msg : String)
  | UsageError (msg : String)
  | ExecutionError (msg : String)
deriving DecidableEq, Repr

/-- Field lookup in a JSON object's association list: first binding of
the key, as `serde_json::Map::get`. -/
def lookupField : List (String × Value) → String → Option Value
  | [], _ => none
  | (k, v) :: rest, key => if k = key then some v else lookupField rest key

/-- `Value::get` on objects; `none` on non-objects. -/
def getField : Value → String → Option Value
  | .obj fs, key => lookupField fs key
  | _, _ => none

/-- `Value::as_str`. -/
def asStr : Value → Option String
  | .str s => some s
  | _ => none

/-- `Value::as_array`. -/
def asArr : Value → Option (List Value)
  | .arr xs => some xs
  | _ => none

/-- `Value::is_object` (equivalently, whether `as_object_mut` succeeds). -/
def isObj : Value → Bool
  | .obj _ => true
  | _ => false

/-- `serde_json::Map::insert`: replaces the value of an existing key in
place, otherwise appends the new binding. -/
def insertField : List (String × Value) → String → Value → List (String × Value)
  | [], k, v => [(k, v)]
  | (k₀, v₀) :: rest, k, v =>
    if k₀ = k then (k₀, v) :: rest else (k₀, v₀) :: insertField rest k v

/-- The first step of `post` (deepseek.rs lines 86-89):
`payload.as_object_mut().unwrap().insert("stream", Bool(true))`.
Returns the JSON body actually sent to the vendor; `none` models the
panic of `unwrap()` on a non-object payload. -/
def setStreamTrue : Value → Option Value
  | .obj fs => some (.obj (insertField fs "stream" (.bool true)))
  | _ => none

/-- Modelled from the spec: the token-usage record (input/output/total
token counts); zero-valued by default (`Usage::default()` in
`providers/base.rs`, not among the sources at hand). -/
structure SUsage where
  input_tokens : Nat
  output_tokens : Nat
  total_tokens : Nat
deriving DecidableEq, Repr

/-- The all-zero usage record that `Usage::default()` produces. -/
def SUsage.zero : SUsage := ⟨0, 0, 0⟩

/-- Modelled from the spec: one partial tool-call fragment of a stream
frame, identified by its index, possibly carrying a name and an
argument-string fragment. -/
structure ToolFrag where
  index : Nat
  name : Option String := none
  args : String := ""
deriving DecidableEq, Repr

/-- Modelled from the spec: `OAIStreamChunk`, the parsed JSON body of one
SSE `data:` line — zero or more incremental deltas (content fragment,
partial tool-call fragments), an optional finish-reason and an optional
usage object (`utils_universal_openai_stream.rs` is not among the
sources at hand). -/
structure Frame where
  content : Option String := none
  toolFrags : List ToolFrag := []
  finishReason : Option String := none
  usage : Option SUsage := none
deriving DecidableEq, Repr

/-- Modelled from the spec: the collector's accumulator — concatenated
content, a mapping from tool-call index to its in-progress
(name, concatenated-arguments) pair, last-seen finish-reason, last-seen
usage object. -/
structure Accum where
  content : String
  tools : List (Nat × String × String)
  finishReason : Option String
  usage : Option SUsage
deriving DecidableEq, Repr

/-- The empty accumulator `OAIStreamCollector::new()` starts from. -/
def emptyAccum : Accum := ⟨"", [], none, none⟩

/-- Merge one tool-call fragment into the index-keyed mapping:
argument fragments for an existing index are concatenated, a name
arriving later replaces a missing one. -/
def mergeToolFrag (tools : List (Nat × String × String)) (f : ToolFrag) :
    List (Nat × String × String) :=
  match tools with
  | [] => [(f.index, f.name.getD "", f.args)]
  | (i, n, a) :: rest =>
    if i = f.index then (i, f.name.getD n, a ++ f.args) :: rest
    else (i, n, a) :: mergeToolFrag rest f

/-- Modelled from the spec: `OAIStreamCollector::add_chunk` — content
fragments append in arrival order, tool-call fragments merge by index,
finish-reason and usage are replaced (last-write-wins) when present. -/
def addChunk (acc : Accum) (fr : Frame) : Accum :=
  { content := acc.content ++ fr.content.getD ""
    tools := fr.toolFrags.foldl mergeToolFrag acc.tools
    finishReason := match fr.finishReason with
      | some r => some r
      | none => acc.finishReason
    usage := match fr.usage with
      | some u => some u
      | none => acc.usage }

/-- The final message part of the collector's built response. -/
structure ResultMsg where
  content : String
  toolCalls : List (Nat × String × String)
  finishReason : Option String
deriving DecidableEq, Repr

/-- Modelled from the spec: the response value
`OAIStreamCollector::build_response` produces — the accumulated message
plus the last-seen usage object, if any. -/
structure OAIResponse where
  message : ResultMsg
  usage : Option SUsage
deriving DecidableEq, Repr

/-- `collector.build_response()` after adding the given frames in order. -/
def buildResponse (frames : List Frame) : OAIResponse :=
  let acc := frames.foldl addChunk emptyAccum
  ⟨⟨acc.content, acc.tools, acc.finishReason⟩, acc.usage⟩

/-- Characters Rust's `str::trim` removes at both ends (the protocol text
is ASCII; `Char.isWhitespace` covers the whitespace that occurs). -/
def trimChars (l : List Char) : List Char :=
  ((l.dropWhile Char.isWhitespace).reverse.dropWhile Char.isWhitespace).reverse

/-- `line.trim()`. -/
def rustTrim (s : String) : String := String.mk (trimChars s.toList)

/-- `tline.starts_with("data: ")`. -/
def isDataLine (s : String) : Bool := "data: ".toList.isPrefixOf s.toList

/-- `&tline[6..]`: the six leading bytes `"data: "` are six ASCII
characters, so byte offset 6 is character offset 6. -/
def dataPayload (s : String) : String := String.mk (s.toList.drop 6)

/-- Split a character list at every newline (keeping empty segments). -/
def splitNlList : List Char → List (List Char)
  | [] => [[]]
  | c :: rest =>
    if c = '\n' then [] :: splitNlList rest
    else
      match splitNlList rest with
      | [] => [[c]]
      | l :: ls => (c :: l) :: ls

/-- Strip the single trailing carriage return `str::lines` removes. -/
def stripCr (l : List Char) : List Char :=
  match l.reverse with
  | '\r' :: rest => rest.reverse
  | _ => l

/-- Rust's `text.lines()`: split on newlines, drop the empty segment a
trailing newline would create, strip one trailing carriage return per
line; the empty string has no lines. -/
def rustLines (s : String) : List String :=
  if s = "" then []
  else
    let parts := splitNlList s.toList
    let parts := if s.toList.getLast? = some '\n' then parts.dropLast else parts
    parts.map (fun l => String.mk (stripCr l))

/-- The inner `for line in text.lines()` loop of `post` (deepseek.rs
lines 117-130), returning the frames handed to the collector from this
chunk's lines: non-`data: ` lines are skipped, the `[DONE]` sentinel
breaks out of this (inner) loop, unparsable payloads are skipped.
`parse` stands for `serde_json::from_str::<OAIStreamChunk>`. -/
def processChunkLines (parse : String → Option Frame) : List String → List Frame
  | [] => []
  | line :: rest =>
    let tline := rustTrim line
    if isDataLine tline then
      let payload := dataPayload tline
      if payload = "[DONE]" then []
      else
        match parse payload with
        | some fr => fr :: processChunkLines parse rest
        | none => processChunkLines parse rest
    else processChunkLines parse rest

/-- One item of `response.bytes_stream()`: either a chunk's text (bytes
decoded with `from_utf8_lossy`, which is total) or a mid-stream
transport error. -/
inductive ChunkResult where
  | ok (text : String)
  | err (msg : String)
deriving DecidableEq, Repr

/-- The outer `while let Some(chunk) = stream.next()` loop of `post`
(deepseek.rs lines 113-131): a chunk error aborts the whole call via
`?`; otherwise the chunk's lines are processed and — because the
`[DONE]` `break` only leaves the inner loop — the next chunk is
consumed regardless. -/
def collectFrames (parse : String → Option Frame) :
    List ChunkResult → Except String (List Frame)
  | [] => .ok []
  | .err e :: _ => .error e
  | .ok text :: rest =>
    match collectFrames parse rest with
    | .error e => .error e
    | .ok more => .ok (processChunkLines parse (rustLines text) ++ more)

/-- An HTTP response: status code and body chunk sequence.  `post` in
the source never consults the status (there is no `error_for_status`
call); it is carried here so that theorems can speak about it. -/
structure HttpResponse where
  status : Nat
  chunks : List ChunkResult
deriving DecidableEq, Repr

/-- Outcome of `request.json(&payload).send().await`: a connection-level
failure, or a response. -/
inductive SendResult where
  | err (msg : String)
  | ok (resp : HttpResponse)
deriving DecidableEq, Repr

/-- Outcome of a provider call, with the panic of an `unwrap()` made
explicit. -/
inductive Outcome (α : Type) where
  | panics
  | fails (e : ProviderError)
  | ok (val : α)
deriving DecidableEq, Repr

/-- `DeepSeekProvider::post` (deepseek.rs lines 84-138), parameterised by
the frame parser and by the transport outcome.  The URL-construction
steps (lines 91-95) are elided: they depend only on the static
configuration, not on the payload or the response, and their failures
also map to `RequestFailed`.  `serde_json::to_value` on the collector's
own output (line 134) cannot fail and is elided likewise. -/
def post (parse : String → Option Frame) (payload : Value) (send : SendResult) :
    Outcome OAIResponse :=
  match setStreamTrue payload with
  | none => .panics
  | some _body =>
    match send with
    | .err e => .fails (.RequestFailed e)
    | .ok resp =>
      match collectFrames parse resp.chunks with
      | .error e => .fails (.RequestFailed e)
      | .ok frames => .ok (buildResponse frames)

/-- Modelled from the spec: `response_to_message` from
`formats/openai.rs` (not among the sources at hand) — converts the
response into the caller's message type; an empty accumulated content is
a legitimate outcome, not an error. -/
def response_to_message (r : OAIResponse) : Except ProviderError ResultMsg :=
  .ok r.message

/-- Modelled from the spec: `get_usage` from `formats/openai.rs` (not
among the sources at hand) — extracts the usage record from the
response; a response without one yields the usage-taxonomy error, which
the caller recovers from. -/
def get_usage (r : OAIResponse) : Except ProviderError SUsage :=
  match r.usage with
  | some u => .ok u
  | none => .error (.UsageError "Failed to get usage data")

/-- `DeepSeekProvider::complete` (deepseek.rs lines 169-193) from the
`post` call onward: parse the response into a message, extract usage,
recovering from `UsageError` with the zero-valued default.  The
request-payload construction `create_request` is abstracted as the
`payload` argument, and the model-name bookkeeping and debug tracing are
elided (they do not affect the returned message or usage). -/
def complete (parse : String → Option Frame) (payload : Value) (send : SendResult) :
    Outcome (ResultMsg × SUsage) :=
  match post parse payload send with
  | .panics => .panics
  | .fails e => .fails e
  | .ok response =>
    match response_to_message response with
    | .error e => .fails e
    | .ok message =>
      match get_usage response with
      | .ok usage => .ok (message, usage)
      | .error (.UsageError _) => .ok (message, SUsage.zero)
      | .error e => .fails e

/-- Lexicographic comparison of character lists by code point, which on
valid UTF-8 coincides with Rust's byte-wise `String` ordering. -/
def charListLe : List Char → List Char → Bool
  | [], _ => true
  | _ :: _, [] => false
  | a :: as, b :: bs =>
    if a < b then true
    else if b < a then false
    else charListLe as bs

/-- Lexicographic string comparison, `a <= b` on Rust `String`s. -/
def strLe (a b : String) : Bool := charListLe a.toList b.toList

/-- Insert into a sorted list, keeping it sorted under `strLe`. -/
def orderedInsertStr (x : String) : List String → List String
  | [] => [x]
  | y :: ys => if strLe x y then x :: y :: ys else y :: orderedInsertStr x ys

/-- `models.sort()`: Rust's stable sort, modelled as insertion sort over
the byte-lexicographic order.  Because that order is antisymmetric, the
sorted permutation of a given list is unique, so any correct sort
implementation produces this result. -/
def sortStrings : List String → List String
  | [] => []
  | x :: xs => orderedInsertStr x (sortStrings xs)

/-- `DeepSeekProvider::fetch_supported_models_async` (deepseek.rs lines
196-232) from the decoded response JSON onward: a vendor error object
yields `Authentication` with the vendor's message (or `"unknown error"`),
a missing or non-array `data` field yields `UsageError`, and otherwise
the entries' string ids are collected (entries without a usable id are
skipped by `filter_map`) and sorted.  The URL/send/json-decode steps,
whose failures map to `RequestFailed` via `?`, are elided. -/
def fetch_supported_models_async (json : Value) :
    Except ProviderError (Option (List String)) :=
  match getField json "error" with
  | some errObj =>
    let msg := match (getField errObj "message").bind asStr with
      | some s => s
      | none => "unknown error"
    .error (.Authentication msg)
  | none =>
    match (getField json "data").bind asArr with
    | none => .error (.UsageError "Missing data field in JSON response")
    | some data =>
      let models := data.filterMap (fun m => (getField m "id").bind asStr)
      .ok (some (sortStrings models))

/-- `DeepSeekProvider::supports_embeddings` (deepseek.rs lines 234-236). -/
def supports_embeddings : Bool := false

/-- `DeepSeekProvider::create_embeddings` (deepseek.rs lines 238-242). -/
def create_embeddings (_texts : List String) :
    Except ProviderError (List (List Float)) :=
  .error (.ExecutionError "DeepSeek does not support embeddings")

/-- Whether a stream item is a chunk rather than a transport error. -/
def ChunkResult.isOk : ChunkResult → Bool
  | .ok _ => true
  | .err _ => false

/-- A concrete frame parser for evaluating the pipeline: the payload
`"one"` parses to a frame with content `"Hello"`, the payload `"two"` to
a frame with content `" world"`, everything else fails to parse. -/
def parseDemo : String → Option Frame := fun s =>
  if s = "one" then some { content := some "Hello" }
  else if s = "two" then some { content := some " world" }
  else none

/-- A frame parser on which every payload fails to parse. -/
def parseNone : String → Option Frame := fun _ => none

/-- A body chunk whose lines are a valid frame, the `[DONE]` sentinel,
and a further `data:` line after the sentinel. -/
def doneChunk : String := "data: one\ndata: [DONE]\ndata: ignored\n"

/-- A body chunk, arriving after the sentinel, that carries one more
valid frame. -/
def lateChunk : String := "data: two\n"

/-- A body chunk with one unparsable `data:` line between two valid
frames. -/
def badChunk : String := "data: one\ndata: broken\ndata: two"

/-- The chunk `badChunk` with the unparsable line absent. -/
def goodChunk : String := "data: one\ndata: two"

/-- A directory-fetch response whose `data` entries carry the same id
twice. -/
def dupModelsJson : Value :=
  .obj [("data", .arr [.obj [("id", .str "a")], .obj [("id", .str "a")]])]

/-- The spec's directory-fetch example response
with ids `"b"` and `"a"`. -/
def exModelsJson : Value :=
  .obj [("data", .arr [.obj [("id", .str "b")], .obj [("id", .str "a")]])]

/-- A vendor error response body carrying the message `"bad key"`. -/
def authErrJson : Value :=
  .obj [("error", .obj [("message", .str "bad key")])]

/-- The same vendor error body as raw response text, the way the
completion endpoint would deliver it. -/
def errorBodyChunk : String :=
  "\x7b\"error\":\x7b\"message\":\"bad key\"\x7d\x7d"

/-- Inserting a binding makes it the one `lookup` finds, whether the key
was present (value replaced in place) or not (binding appended). -/
theorem lookupField_insertField (fs : List (String × Value)) (k : String) (v : Value) :
    lookupField (insertField fs k v) k = some v := by
  induction fs with
  | nil => simp [insertField, lookupField]
  | cons p rest ih =>
    obtain ⟨k₀, v₀⟩ := p
    by_cases h : k₀ = k
    · subst h; simp [insertField, lookupField]
    · simp [insertField, lookupField, h, ih]

/-- Inversion of lexicographic order on nonempty character lists. -/
theorem lex_cons_iff_char {a b : Char} {as bs : List Char} :
    List.Lex (· < ·) (b :: bs) (a :: as) ↔ b < a ∨ (b = a ∧ List.Lex (· < ·) bs as) := by
  constructor
  · intro h
    cases h with
    | cons h => exact .inr ⟨rfl, h⟩
    | rel h => exact .inl h
  · rintro (h | ⟨rfl, h⟩)
    · exact .rel h
    · exact .cons h

/-- The executable comparison `charListLe` decides the lexicographic
order on character lists. -/
theorem charListLe_iff (as : List Char) : ∀ bs : List Char,
    charListLe as bs = true ↔ ¬ List.Lex (· < ·) bs as := by
  induction as with
  | nil =>
    intro bs
    simp only [charListLe]
    constructor
    · intro _ h; exact List.Lex.not_nil_right _ _ h
    · intro _; trivial
  | cons a as ih =>
    intro bs
    cases bs with
    | nil =>
      simp only [charListLe]
      constructor
      · intro h; cases h
      · intro h; exact absurd List.Lex.nil h
    | cons b bs =>
      rw [show charListLe (a :: as) (b :: bs)
            = (if a < b then true else if b < a then false else charListLe as bs) from rfl,
        lex_cons_iff_char]
      rcases lt_trichotomy a b with h | h | h
      · simp [h, asymm h, (ne_of_lt h).symm]
      · subst h
        simp [lt_irrefl, ih bs]
      · simp [asymm h, h]

/-- The executable comparison `strLe` decides the string order. -/
theorem strLe_iff (a b : String) : strLe a b = true ↔ a ≤ b := by
  rw [String.le_iff_toList_le, ← not_lt]
  exact charListLe_iff a.toList b.toList

/-- The executable ordered insert agrees with the mathematical one. -/
theorem orderedInsertStr_eq (x : String) (l : List String) :
    orderedInsertStr x l = l.orderedInsert (· ≤ ·) x := by
  induction l with
  | nil => rfl
  | cons y ys ih =>
    rw [show orderedInsertStr x (y :: ys)
          = (if strLe x y then x :: y :: ys else y :: orderedInsertStr x ys) from rfl,
      List.orderedInsert]
    by_cases h : x ≤ y
    · rw [if_pos ((strLe_iff x y).mpr h), if_pos h]
    · rw [if_neg (fun hh => h ((strLe_iff x y).mp hh)), if_neg h, ih]

/-- The executable sort agrees with the mathematical insertion sort. -/
theorem sortStrings_eq (l : List String) :
    sortStrings l = l.insertionSort (· ≤ ·) := by
  induction l with
  | nil => rfl
  | cons x xs ih => rw [show sortStrings (x :: xs) = orderedInsertStr x (sortStrings xs) from rfl,
      List.insertionSort, ih, orderedInsertStr_eq]

/-- The result of `sortStrings` is sorted. -/
theorem sortStrings_sorted (l : List String) :
    (sortStrings l).Sorted (· ≤ ·) := by
  rw [sortStrings_eq]
  exact List.sorted_insertionSort _ _

/-- The result of `sortStrings` is a permutation of its input. -/
theorem sortStrings_perm (l : List String) : (sortStrings l).Perm l := by
  rw [sortStrings_eq]
  exact List.perm_insertionSort _ _

/-- An unparsable non-sentinel `data:` line contributes no frame and
does not change the control flow of the line loop. -/
theorem processChunkLines_skip (parse : String → Option Frame)
    (pre sfx : List String) (bad : String)
    (hData : isDataLine (rustTrim bad) = true)
    (hNotDone : dataPayload (rustTrim bad) ≠ "[DONE]")
    (hBad : parse (dataPayload (rustTrim bad)) = none) :
    processChunkLines parse (pre ++ bad :: sfx) = processChunkLines parse (pre ++ sfx) := by
  induction pre with
  | nil =>
    simp only [List.nil_append, processChunkLines, hData, if_true, hNotDone, if_neg, hBad]
    simp [hNotDone]
  | cons l pre ih =>
    simp only [List.cons_append, processChunkLines]
    by_cases h1 : isDataLine (rustTrim l)
    · simp only [h1, if_true]
      by_cases h2 : dataPayload (rustTrim l) = "[DONE]"
      · simp [h2]
      · cases hp : parse (dataPayload (rustTrim l)) <;> simp [h2, hp, ih]
    · simp [h1, ih]

/-- Chunk streams that differ only in one chunk whose lines produce the
same frames produce the same collected frames. -/
theorem collectFrames_middle (parse : String → Option Frame)
    (before after : List ChunkResult) {c c' : String}
    (h : processChunkLines parse (rustLines c) = processChunkLines parse (rustLines c')) :
    collectFrames parse (before ++ .ok c :: after)
      = collectFrames parse (before ++ .ok c' :: after) := by
  induction before with
  | nil => simp [collectFrames, h]
  | cons b before ih =>
    cases b with
    | err e => simp [collectFrames]
    | ok t => simp only [List.cons_append, collectFrames, List.append_eq, ih]

/-- A chunk stream without transport errors always collects frames. -/
theorem collectFrames_all_ok (parse : String → Option Frame) (chunks : List ChunkResult)
    (hok : ∀ c ∈ chunks, c.isOk = true) :
    ∃ frames, collectFrames parse chunks = .ok frames := by
  induction chunks with
  | nil => exact ⟨[], rfl⟩
  | cons c rest ih =>
    cases c with
    | err e => exact absurd (hok _ (List.mem_cons_self _ _)) (by simp [ChunkResult.isOk])
    | ok t =>
      obtain ⟨frames, hf⟩ := ih (fun c hc => hok c (List.mem_cons_of_mem _ hc))
      exact ⟨_, by rw [show collectFrames parse (ChunkResult.ok t :: rest)
        = (match collectFrames parse rest with
           | .error e => .error e
           | .ok more => .ok (processChunkLines parse (rustLines t) ++ more)) from rfl, hf]⟩

/-- If no frame carries a usage object, folding them leaves the
accumulator's usage untouched. -/
theorem foldl_addChunk_usage (frames : List Frame) :
    ∀ acc : Accum, (∀ fr ∈ frames, fr.usage = none) →
    (frames.foldl addChunk acc).usage = acc.usage := by
  induction frames with
  | nil => intro acc _; rfl
  | cons fr frames ih =>
    intro acc h
    rw [List.foldl_cons, ih _ (fun f hf => h f (List.mem_cons_of_mem _ hf))]
    have hu : fr.usage = none := h fr (List.mem_cons_self _ _)
    simp [addChunk, hu]

/-- C1: the claim says that once a `[DONE]` sentinel line is observed no
further bytes of the same or any later chunk are inspected and the
Result reflects only pre-sentinel frames.  The code's `break` leaves
only the inner line loop, so this theorem evaluates `post` at the
failing input: a chunk carrying a frame (content `"Hello"`), the
sentinel, and a trailing line, followed by a second chunk carrying
another frame (content `" world"`).  The final content is
`"Hello world"` — the frame from the chunk after the sentinel is folded
in — whereas without the later chunk it is `"Hello"`.  (The trailing
line inside the sentinel's own chunk is indeed skipped.) -/
theorem claim_C1 :
    post parseDemo (.obj []) (.ok ⟨200, [.ok doneChunk, .ok lateChunk]⟩)
      = .ok ⟨⟨"Hello world", [], none⟩, none⟩ ∧
    post parseDemo (.obj []) (.ok ⟨200, [.ok doneChunk]⟩)
      = .ok ⟨⟨"Hello", [], none⟩, none⟩ :=
  ⟨by decide, by decide⟩

/-- C2, counterexample: a non-2xx response (status 500 with a plain
error body) does not surface `RequestFailed`; `post` consumes the body
as a stream and succeeds with an empty accumulated response, because the
source never consults the response status. -/
theorem claim_C2_counterexample :
    post parseNone (.obj []) (.ok ⟨500, [.ok "Internal Server Error"]⟩)
      = .ok ⟨⟨"", [], none⟩, none⟩ := by decide

/-- C2, amended: `post` issues one POST; a connection failure surfaces
`RequestFailed` carrying the underlying cause text, but the HTTP status
is never inspected — for every status (2xx or not), an error-free body
is consumed as a stream and the call succeeds. -/
theorem claim_C2 (parse : String → Option Frame) (fs : List (String × Value))
    (e : String) (status : Nat) (chunks : List ChunkResult)
    (hok : ∀ c ∈ chunks, c.isOk = true) :
    post parse (.obj fs) (.err e) = .fails (.RequestFailed e) ∧
    ∃ r, post parse (.obj fs) (.ok ⟨status, chunks⟩) = .ok r := by
  constructor
  · rfl
  · obtain ⟨frames, hf⟩ := collectFrames_all_ok parse chunks hok
    exact ⟨buildResponse frames, by simp [post, setStreamTrue, hf]⟩

/-- C2, witness: the amended claim at a concrete connection failure and
a concrete 404 response. -/
theorem claim_C2_witness :
    post parseNone (.obj []) (.err "connection refused")
      = .fails (.RequestFailed "connection refused") ∧
    ∃ r, post parseNone (.obj []) (.ok ⟨404, [.ok "data: x\n"]⟩) = .ok r :=
  claim_C2 parseNone [] "connection refused" 404 [.ok "data: x\n"] (by decide)

/-- C3: inserting one unparsable, non-sentinel `data:` line anywhere in
a chunk's line sequence yields exactly the same final Result of `post`
as the stream without the bad line — parse failure on an individual
frame is skipped and never aborts or alters the stream. -/
theorem claim_C3 (parse : String → Option Frame) (fs : List (String × Value))
    (status : Nat) (before after : List ChunkResult) (c c' : String)
    (pre sfx : List String) (bad : String)
    (hData : isDataLine (rustTrim bad) = true)
    (hNotDone : dataPayload (rustTrim bad) ≠ "[DONE]")
    (hBad : parse (dataPayload (rustTrim bad)) = none)
    (hc : rustLines c = pre ++ bad :: sfx)
    (hc' : rustLines c' = pre ++ sfx) :
    post parse (.obj fs) (.ok ⟨status, before ++ .ok c :: after⟩)
      = post parse (.obj fs) (.ok ⟨status, before ++ .ok c' :: after⟩) := by
  have h : processChunkLines parse (rustLines c) = processChunkLines parse (rustLines c') := by
    rw [hc, hc']
    exact processChunkLines_skip parse pre sfx bad hData hNotDone hBad
  have h3 := collectFrames_middle parse before after h
  simp [post, setStreamTrue, h3]

/-- C3, witness: the spec's scenario — one unparsable `data:` line
between two valid frames — at concrete chunks. -/
theorem claim_C3_witness :
    post parseDemo (.obj []) (.ok ⟨200, [.ok badChunk]⟩)
      = post parseDemo (.obj []) (.ok ⟨200, [.ok goodChunk]⟩) :=
  claim_C3 parseDemo [] 200 [] [] badChunk goodChunk
    ["data: one"] ["data: two"] "data: broken"
    (by decide) (by decide) (by decide) (by decide) (by decide)

/-- C4, counterexample: the claim says the returned identifiers are
deduplicated.  A `data` array carrying the id `"a"` twice returns
`["a", "a"]`, which is not duplicate-free — `models.sort()` sorts but
removes nothing. -/
theorem claim_C4_counterexample :
    fetch_supported_models_async dupModelsJson = .ok (some ["a", "a"]) ∧
    ¬ (["a", "a"] : List String).Nodup :=
  ⟨by rfl, by decide⟩

/-- C4, amended: `fetch_supported_models_async` skips entries whose id
is missing or not a string and returns the collected identifiers sorted
lexicographically — deterministic, but duplicates are preserved, not
removed: the result is sorted and is a permutation of (exactly) the
extracted id multiset. -/
theorem claim_C4 (json : Value) (data : List Value)
    (herr : getField json "error" = none)
    (hdata : getField json "data" = some (.arr data)) :
    ∃ l, fetch_supported_models_async json = .ok (some l) ∧
      l.Sorted (· ≤ ·) ∧
      l.Perm (data.filterMap (fun m => (getField m "id").bind asStr)) := by
  refine ⟨sortStrings (data.filterMap (fun m => (getField m "id").bind asStr)), ?_, ?_, ?_⟩
  · simp [fetch_supported_models_async, herr, hdata, asArr]
  · exact sortStrings_sorted _
  · exact sortStrings_perm _

/-- C4, witness: the spec's example `data` array with ids `"b"`, `"a"`. -/
theorem claim_C4_witness :
    ∃ l, fetch_supported_models_async exModelsJson = .ok (some l) ∧
      l.Sorted (· ≤ ·) ∧
      l.Perm ([Value.obj [("id", .str "b")], Value.obj [("id", .str "a")]].filterMap
        (fun m => (getField m "id").bind asStr)) :=
  claim_C4 exModelsJson [.obj [("id", .str "b")], .obj [("id", .str "a")]] rfl rfl

/-- C5: if no frame of the stream carries a usage object, `complete`
still succeeds and its Usage record has all token counts zero — absent
usage is recovered to the zero-valued default, never an error. -/
theorem claim_C5 (parse : String → Option Frame) (fs : List (String × Value))
    (status : Nat) (chunks : List ChunkResult) (frames : List Frame)
    (hframes : collectFrames parse chunks = .ok frames)
    (hnone : ∀ fr ∈ frames, fr.usage = none) :
    ∃ m, complete parse (.obj fs) (.ok ⟨status, chunks⟩) = .ok (m, ⟨0, 0, 0⟩) := by
  have husage : (buildResponse frames).usage = none := by
    simp [buildResponse]
    exact foldl_addChunk_usage frames emptyAccum hnone
  refine ⟨(buildResponse frames).message, ?_⟩
  simp [complete, post, setStreamTrue, hframes, response_to_message, get_usage, husage, SUsage.zero]

/-- C5, witness: a one-chunk stream whose single frame carries content
but no usage object. -/
theorem claim_C5_witness :
    ∃ m, complete parseDemo (.obj []) (.ok ⟨200, [.ok "data: one\n"]⟩) = .ok (m, ⟨0, 0, 0⟩) :=
  claim_C5 parseDemo [] 200 [.ok "data: one\n"] [{ content := some "Hello" }] (by rfl) (by decide)

/-- C6: for every object payload, the JSON body `post` sends carries the
field `"stream"` with value `true`, unconditionally — any caller-supplied
value of that field is overwritten by the insert. -/
theorem claim_C6 (fs : List (String × Value)) :
    ∃ body, setStreamTrue (.obj fs) = some body ∧ getField body "stream" = some (.bool true) :=
  ⟨_, rfl, lookupField_insertField fs "stream" (.bool true)⟩

/-- C7, counterexample: the claim says a completion response containing
a vendor error object yields `Authentication` carrying the message.  On
the completion path the error body has no `data:` line, so the streaming
loop of `post` never inspects it: both `post` and `complete` succeed
with an empty result instead of failing. -/
theorem claim_C7_counterexample :
    post parseNone (.obj []) (.ok ⟨401, [.ok errorBodyChunk]⟩)
      = .ok ⟨⟨"", [], none⟩, none⟩ ∧
    complete parseNone (.obj []) (.ok ⟨401, [.ok errorBodyChunk]⟩)
      = .ok (⟨"", [], none⟩, SUsage.zero) :=
  ⟨by decide, by decide⟩

/-- C7, amended: a directory-fetch response whose body carries a vendor
error object yields `Authentication` with the vendor's message verbatim,
never the transport-failure variant; the completion path, by contrast,
never inspects a non-SSE error body (see the counterexample). -/
theorem claim_C7 (json errObj : Value) (msg : String)
    (herr : getField json "error" = some errObj)
    (hmsg : getField errObj "message" = some (.str msg)) :
    fetch_supported_models_async json = .error (.Authentication msg) ∧
    ∀ s, ProviderError.Authentication msg ≠ ProviderError.RequestFailed s := by
  constructor
  · simp [fetch_supported_models_async, herr, hmsg, asStr]
  · intro s h
    cases h

/-- C7, witness: the spec's example error body with message `"bad key"`. -/
theorem claim_C7_witness :
    fetch_supported_models_async authErrJson = .error (.Authentication "bad key") ∧
    ∀ s, ProviderError.Authentication "bad key" ≠ ProviderError.RequestFailed s :=
  claim_C7 authErrJson (.obj [("message", .str "bad key")]) "bad key" rfl rfl

/-- C8: a directory-fetch response JSON with no error object and no
`data` array fails with the usage-taxonomy variant `UsageError`, which
is distinct from the transport-failure variant `RequestFailed`. -/
theorem claim_C8 (json : Value)
    (herr : getField json "error" = none)
    (hdata : (getField json "data").bind asArr = none) :
    fetch_supported_models_async json
      = .error (.UsageError "Missing data field in JSON response") ∧
    ∀ s, ProviderError.UsageError "Missing data field in JSON response"
      ≠ ProviderError.RequestFailed s := by
  constructor
  · simp only [fetch_supported_models_async, herr, hdata]
  · intro s h
    cases h

/-- C8, witness: a response object with neither an error object nor a
`data` field. -/
theorem claim_C8_witness :
    fetch_supported_models_async (.obj [("object", .str "list")])
      = .error (.UsageError "Missing data field in JSON response") ∧
    ∀ s, ProviderError.UsageError "Missing data field in JSON response"
      ≠ ProviderError.RequestFailed s :=
  claim_C8 (.obj [("object", .str "list")]) rfl rfl

/-- C9: for every input, `create_embeddings` returns the error the spec
calls the unsupported-operation variant (the `ExecutionError` the call
site constructs), and never succeeds. -/
theorem claim_C9 (texts : List String) :
    create_embeddings texts = .error (.ExecutionError "DeepSeek does not support embeddings") ∧
    ∀ v, create_embeddings texts ≠ .ok v :=
  ⟨rfl, fun _v h => Except.noConfusion h⟩

/-- C10: `post` panics (at `as_object_mut().unwrap()`) exactly when the
payload is not a top-level JSON object; under the object precondition
the unwrap cannot fail, and every other exit is a `ProviderError` or a
success. -/
theorem claim_C10 (parse : String → Option Frame) (payload : Value) (send : SendResult) :
    post parse payload send = .panics ↔ isObj payload = false := by
  cases payload with
  | obj fs =>
    simp only [post, setStreamTrue, isObj]
    cases send with
    | err e => simp
    | ok resp => cases h : collectFrames parse resp.chunks <;> simp [h]
  | null => simp [post, setStreamTrue, isObj]
  | bool b => simp [post, setStreamTrue, isObj]
  | num n => simp [post, setStreamTrue, isObj]
  | str s => simp [post, setStreamTrue, isObj]
  | arr xs => simp [post, setStreamTrue, isObj]
